import Mathlib

/-!
# Verification of the lagless-socket Bingo backend (src/server.js)

Shallow embedding of the in-memory game state and the socket handlers:
`generateBoard`, `create-room`, `join-room`, `start-game`, `call-number`,
`mark-cell` and `claim-bingo`.  JavaScript arrays become Lean lists,
the `Map` / object dictionaries become insertion-ordered association
lists, `null` becomes `none`, and the calls to `Math.random()` become
explicit oracle parameters (an arbitrary natural number that is reduced
modulo the relevant length, so every index the program could draw is
reachable).  Handler callbacks `cb({ok:false,error})` become `Except`
errors; a JavaScript `TypeError` thrown by indexing into `undefined` is
modelled by the distinguished error `MarkErr.typeError`.
-/

namespace Bingo

/-- A board cell: `{ number, markedBy }`.  In the source `number` is the
integer drawn for the cell and `markedBy` is `null`, the string `"free"`,
or a socket id; `Option` models `null`. -/
structure Cell where
  number : Option Nat
  markedBy : Option String
  deriving DecidableEq, Repr

/-- Placeholder cell used as the default of `List.getD` lookups; every
lookup below is at a defined index, so it is never produced. -/
def dCell : Cell := { number := none, markedBy := none }

/-- A player: `{ id: socket.id, name, board: generateBoard() }`. -/
structure Player where
  id : String
  name : String
  board : List (List Cell)
  deriving DecidableEq, Repr

/-- A room/game as stored in the `games` map: `players` is the object
keyed by socket id, kept as an insertion-ordered association list. -/
structure Game where
  id : String
  hostId : String
  players : List (String × Player)
  calledNumbers : List Nat
  started : Bool
  winnerId : Option String
  deriving DecidableEq, Repr

/-- JavaScript truthiness of a `markedBy` value: `null` and `""` are
falsy, every other string is truthy. -/
def jsTruthy : Option String → Bool
  | none => false
  | some s => s ≠ ""

/-- JavaScript array indexing `l[i]` with a possibly negative index:
out-of-range access yields `undefined`, modelled as `none`. -/
def jsIndex (l : List α) (i : Int) : Option α :=
  if 0 ≤ i then l.get? i.toNat else none

/-- Replace the value stored under key `k` in an association list,
leaving every other entry in place (the in-place object mutation
`obj[k].field = v` of the source). -/
def setEntry (ps : List (String × α)) (k : String) (v : α) : List (String × α) :=
  ps.map (fun p => if p.1 = k then (k, v) else p)

/-- `Map.prototype.set` / object-key assignment: update the entry in
place if the key is present, otherwise append a new entry. -/
def mapSet (ps : List (String × α)) (k : String) (v : α) : List (String × α) :=
  if ps.any (fun p => p.1 = k) then setEntry ps k v else ps ++ [(k, v)]

/-! ## Board generation (`generateBoard`, server.js lines 22-47) -/

/-- The numbers available to column `c`:
`Array.from({length: max-min+1}, (_, i) => i + min)` with
`[min, max] = ranges[c] = [15c+1, 15c+15]`. -/
def colRange (c : Nat) : List Nat :=
  (List.range 15).map (fun i => i + (15 * c + 1))

/-- One `numbers.splice(Math.floor(Math.random()*numbers.length), 1)[0]`
step: remove and return the element at the drawn index.  The oracle
value `k` is reduced modulo the current length, which covers exactly
the indices `Math.floor(Math.random()*len)` can produce. -/
def spliceAt (l : List Nat) (k : Nat) : Nat × List Nat :=
  (l.getD (k % l.length) 0, l.eraseIdx (k % l.length))

/-- Draw one number per oracle value, without replacement. -/
def drawN (l : List Nat) (ks : List Nat) : List Nat × List Nat :=
  match ks with
  | [] => ([], l)
  | k :: ks' =>
    let p := spliceAt l k
    let q := drawN p.2 ks'
    (p.1 :: q.1, q.2)

/-- The five numbers drawn for column `c` (row 0 first), given the
randomness oracle `rand col row`. -/
def colNumbers (rand : Nat → Nat → Nat) (c : Nat) : List Nat :=
  (drawN (colRange c) ((List.range 5).map (rand c))).1

/-- `generateBoard`: populate the 5×5 grid column by column with
`{number, markedBy: null}` cells, then set the center cell's `markedBy`
to `"free"` (the source mutates only `markedBy`; the drawn number
stays in the cell). -/
def generateBoard (rand : Nat → Nat → Nat) : List (List Cell) :=
  let base : List (List Cell) :=
    (List.range 5).map (fun row =>
      (List.range 5).map (fun col =>
        { number := some ((colNumbers rand col).getD row 0), markedBy := none }))
  let row2 := base.getD 2 []
  let center := row2.getD 2 dCell
  base.set 2 (row2.set 2 { center with markedBy := some "free" })

/-- The cell of board `b` at row `r`, column `c` (defined indices). -/
def cellAt (b : List (List Cell)) (r c : Nat) : Cell :=
  (b.getD r []).getD c dCell

/-! ## Win evaluation (`claim-bingo`, server.js lines 142-150) -/

/-- `checkLine`: every cell of the line is marked by this actor or is
the free cell. -/
def checkLine (actorId : String) (cells : List Cell) : Bool :=
  cells.all (fun c => c.markedBy == some actorId || c.markedBy == some "free")

/-- `hasBingo`: some row, some column, the main diagonal or the
anti-diagonal passes `checkLine`. -/
def hasBingo (board : List (List Cell)) (actorId : String) : Bool :=
  board.any (fun row => checkLine actorId row) ||
  (List.range 5).any (fun c =>
    checkLine actorId (board.map (fun r => r.getD c dCell))) ||
  checkLine actorId ((List.range 5).map (fun i => cellAt board i i)) ||
  checkLine actorId ((List.range 5).map (fun i => cellAt board i (4 - i)))

/-! ## Handlers -/

inductive CallErr
  | forbidden
  | exhausted
  deriving DecidableEq, Repr

inductive MarkErr
  | notInGame
  | invalidCell
  | typeError
  deriving DecidableEq, Repr

inductive ClaimErr
  | notInGame
  | invalidClaim
  deriving DecidableEq, Repr

inductive JoinErr
  | alreadyStarted
  deriving DecidableEq, Repr

inductive StartErr
  | forbidden
  deriving DecidableEq, Repr

/-- `create-room` (lines 53-70): the room code comes from
`Math.random().toString(36).substring(2, 8)`, modelled by the oracle
parameter `roomId`; the new game is stored with `games.set` with no
collision check. -/
def createRoom (games : List (String × Game)) (roomId : String)
    (actorId name : String) (rand : Nat → Nat → Nat) :
    List (String × Game) × String :=
  let player : Player := { id := actorId, name := name, board := generateBoard rand }
  let game : Game :=
    { id := roomId, hostId := actorId, players := [(actorId, player)],
      calledNumbers := [], started := false, winnerId := none }
  (mapSet games roomId game, roomId)

/-- `join-room` (lines 72-83), after the room has been resolved:
rejected once the game has started, otherwise a fresh player (with a
fresh board) is stored under the joining socket id. -/
def joinRoom (g : Game) (actorId name : String) (rand : Nat → Nat → Nat) :
    Except JoinErr Game :=
  if g.started then .error .alreadyStarted
  else
    let player : Player := { id := actorId, name := name, board := generateBoard rand }
    .ok { g with players := mapSet g.players actorId player }

/-- `start-game` (lines 85-95), after the room has been resolved:
host-only; sets `started` and clears `calledNumbers`. -/
def startGame (g : Game) (actorId : String) : Except StartErr Game :=
  if actorId ≠ g.hostId then .error .forbidden
  else .ok { g with started := true, calledNumbers := [] }

/-- `Array.from({length: 75}, (_, i) => i + 1).filter(num =>
!game.calledNumbers.includes(num))` (lines 104-106). -/
def availableNumbers (g : Game) : List Nat :=
  ((List.range 75).map (· + 1)).filter (fun n => !(g.calledNumbers.contains n))

/-- `call-number` (lines 97-115), after the room has been resolved:
host-only; fails when every number has been called, otherwise draws
`availableNumbers[Math.floor(Math.random()*len)]` (oracle `k` modulo
the length) and pushes it onto `calledNumbers`. -/
def callNumber (g : Game) (actorId : String) (k : Nat) :
    Except CallErr (Nat × Game) :=
  if actorId ≠ g.hostId then .error .forbidden
  else
    let avail := availableNumbers g
    if avail.length = 0 then .error .exhausted
    else
      let number := avail.getD (k % avail.length) 0
      .ok (number, { g with calledNumbers := g.calledNumbers ++ [number] })

/-- `mark-cell` (lines 117-133), after the room has been resolved.
`player.board[row][col]` first indexes the row: when `row` is out of
range this yields `undefined` and the subsequent `[col]` throws a
`TypeError` (`MarkErr.typeError`); when only `col` is out of range the
cell is `undefined` and the guard `if (!cell)` answers `Invalid cell`.
Otherwise `cell.markedBy = cell.markedBy ? null : socket.id`. -/
def markCell (g : Game) (actorId : String) (row col : Int) :
    Except MarkErr Game :=
  match g.players.lookup actorId with
  | none => .error .notInGame
  | some player =>
    match jsIndex player.board row with
    | none => .error .typeError
    | some rowCells =>
      match jsIndex rowCells col with
      | none => .error .invalidCell
      | some cell =>
        let newCell : Cell :=
          { cell with markedBy := if jsTruthy cell.markedBy then none else some actorId }
        let newBoard := player.board.set row.toNat (rowCells.set col.toNat newCell)
        .ok { g with players := setEntry g.players actorId { player with board := newBoard } }

/-- `claim-bingo` (lines 135-162), after the room has been resolved:
evaluates `hasBingo` on the claimant's board and, on success,
unconditionally assigns `game.winnerId = socket.id`. -/
def claimBingo (g : Game) (actorId : String) : Except ClaimErr Game :=
  match g.players.lookup actorId with
  | none => .error .notInGame
  | some player =>
    if hasBingo player.board actorId then
      .ok { g with winnerId := some actorId }
    else .error .invalidClaim

/-! ## Helper lemmas about board generation -/

lemma drawN_length (ks : List Nat) (l : List Nat) : (drawN l ks).1.length = ks.length := by
  induction ks generalizing l with
  | nil => rfl
  | cons k ks ih => simp [drawN, ih]

lemma spliceAt_mem {l : List Nat} (h : l ≠ []) (k : Nat) : (spliceAt l k).1 ∈ l := by
  have hl : 0 < l.length := List.length_pos.mpr h
  have hk : k % l.length < l.length := Nat.mod_lt _ hl
  rw [spliceAt, List.getD_eq_getElem _ _ hk]
  exact List.getElem_mem hk

lemma spliceAt_not_mem {l : List Nat} (hn : l.Nodup) (h : l ≠ []) (k : Nat) :
    (spliceAt l k).1 ∉ (spliceAt l k).2 := by
  have hl : 0 < l.length := List.length_pos.mpr h
  have hk : k % l.length < l.length := Nat.mod_lt _ hl
  rw [spliceAt, List.getD_eq_getElem _ _ hk]
  rw [← hn.erase_getElem _ hk]
  exact hn.not_mem_erase

lemma spliceAt_nodup {l : List Nat} (hn : l.Nodup) (k : Nat) : (spliceAt l k).2.Nodup :=
  hn.eraseIdx _

lemma spliceAt_subset {l : List Nat} (k : Nat) : (spliceAt l k).2 ⊆ l :=
  List.eraseIdx_subset _ _

lemma spliceAt_length {l : List Nat} (h : l ≠ []) (k : Nat) :
    (spliceAt l k).2.length = l.length - 1 := by
  have hl : 0 < l.length := List.length_pos.mpr h
  have hk : k % l.length < l.length := Nat.mod_lt _ hl
  simp [spliceAt, List.length_eraseIdx_of_lt hk]

lemma drawN_nodup_subset (ks : List Nat) (l : List Nat)
    (hlen : ks.length ≤ l.length) (hn : l.Nodup) :
    (drawN l ks).1.Nodup ∧ ∀ x ∈ (drawN l ks).1, x ∈ l := by
  induction ks generalizing l with
  | nil => simp [drawN]
  | cons k ks ih =>
    have hne : l ≠ [] := by
      intro h; subst h; simp at hlen
    have h1 := spliceAt_mem hne k
    have h2 := spliceAt_not_mem hn hne k
    have h3 := spliceAt_nodup hn k
    have h4 := @spliceAt_subset l k
    have h5 := spliceAt_length hne k
    have hlen' : ks.length ≤ (spliceAt l k).2.length := by
      simp only [h5]; simp at hlen; omega
    obtain ⟨ihn, ihs⟩ := ih (spliceAt l k).2 hlen' h3
    constructor
    · simp only [drawN, List.nodup_cons]
      exact ⟨fun hmem => h2 (ihs _ hmem), ihn⟩
    · intro x hx
      simp only [drawN, List.mem_cons] at hx
      rcases hx with rfl | hx
      · exact h1
      · exact h4 (ihs _ hx)

lemma colRange_nodup (c : Nat) : (colRange c).Nodup := by
  refine List.Nodup.map ?_ (List.nodup_range 15)
  intro a b h
  simp only at h
  omega

lemma colRange_length (c : Nat) : (colRange c).length = 15 := by
  simp [colRange]

lemma colNumbers_nodup (rand : Nat → Nat → Nat) (c : Nat) : (colNumbers rand c).Nodup := by
  have := drawN_nodup_subset ((List.range 5).map (rand c)) (colRange c)
    (by simp [colRange_length]) (colRange_nodup c)
  exact this.1

lemma colNumbers_mem_range (rand : Nat → Nat → Nat) (c : Nat) :
    ∀ x ∈ colNumbers rand c, 15 * c + 1 ≤ x ∧ x ≤ 15 * c + 15 := by
  have := drawN_nodup_subset ((List.range 5).map (rand c)) (colRange c)
    (by simp [colRange_length]) (colRange_nodup c)
  intro x hx
  have hmem := this.2 x hx
  simp only [colRange, List.mem_map, List.mem_range] at hmem
  obtain ⟨i, hi, rfl⟩ := hmem
  omega

lemma colNumbers_length (rand : Nat → Nat → Nat) (c : Nat) : (colNumbers rand c).length = 5 := by
  simp [colNumbers, drawN_length]

lemma cell_number_eq (rand : Nat → Nat → Nat) (r c : Fin 5) :
    (cellAt (generateBoard rand) r c).number = some ((colNumbers rand c).getD r 0) := by
  fin_cases r <;> fin_cases c <;> rfl

lemma colNumbers_getD_mem (rand : Nat → Nat → Nat) (c : Nat) (r : Fin 5) :
    (colNumbers rand c).getD r 0 ∈ colNumbers rand c := by
  have h5 : (colNumbers rand c).length = 5 := colNumbers_length rand c
  have hr : (r : Nat) < (colNumbers rand c).length := by simp [h5, r.isLt]
  rw [List.getD_eq_getElem _ _ hr]
  exact List.getElem_mem hr

lemma colNumbers_bounds (rand : Nat → Nat → Nat) (c : Nat) (r : Fin 5) :
    15 * c + 1 ≤ (colNumbers rand c).getD r 0 ∧ (colNumbers rand c).getD r 0 ≤ 15 * c + 15 :=
  colNumbers_mem_range rand c _ (colNumbers_getD_mem rand c r)

lemma colNumbers_getD_inj (rand : Nat → Nat → Nat) (c : Nat) (r r' : Fin 5) (h : r ≠ r') :
    (colNumbers rand c).getD r 0 ≠ (colNumbers rand c).getD r' 0 := by
  have h5 : (colNumbers rand c).length = 5 := colNumbers_length rand c
  have hr : (r : Nat) < (colNumbers rand c).length := by simp [h5, r.isLt]
  have hr' : (r' : Nat) < (colNumbers rand c).length := by simp [h5, r'.isLt]
  rw [List.getD_eq_getElem _ _ hr, List.getD_eq_getElem _ _ hr']
  intro heq
  exact h (Fin.ext (((colNumbers_nodup rand c).getElem_inj_iff).mp heq))

/-! ## Spec-side win condition and its equivalence with `hasBingo` -/

/-- Spec-side: a cell counts toward actor `aid`'s line iff its `markedBy`
equals the actor's id or equals `"free"`. -/
def lineFor (aid : String) (c : Cell) : Prop :=
  c.markedBy = some aid ∨ c.markedBy = some "free"

/-- Spec-side win condition, written from the spec's words: some full
row, some full column, the main diagonal (`r = c`) or the anti-diagonal
(`r + c = 4`) is complete for the actor. -/
def winSpec (b : List (List Cell)) (aid : String) : Prop :=
  (∃ r : Fin 5, ∀ c : Fin 5, lineFor aid (cellAt b r c)) ∨
  (∃ c : Fin 5, ∀ r : Fin 5, lineFor aid (cellAt b r c)) ∨
  (∀ i : Fin 5, lineFor aid (cellAt b i i)) ∨
  (∀ i : Fin 5, lineFor aid (cellAt b i (4 - i)))

lemma checkLine_eq_true (aid : String) (cells : List Cell) :
    checkLine aid cells = true ↔ ∀ c ∈ cells, lineFor aid c := by
  simp [checkLine, lineFor, List.all_eq_true]

lemma forall_mem_iff_fin5 {α : Type} (d : α) (l : List α) (h : l.length = 5) (P : α → Prop) :
    (∀ x ∈ l, P x) ↔ ∀ i : Fin 5, P (l.getD i.val d) := by
  constructor
  · intro hall i
    have hi : (i : Nat) < l.length := by omega
    rw [List.getD_eq_getElem _ _ hi]
    exact hall _ (List.getElem_mem hi)
  · intro hfin x hx
    obtain ⟨n, hn, rfl⟩ := List.mem_iff_getElem.mp hx
    have := hfin ⟨n, by omega⟩
    rwa [List.getD_eq_getElem _ _ hn] at this

lemma exists_mem_iff_fin5 {α : Type} (d : α) (l : List α) (h : l.length = 5) (P : α → Prop) :
    (∃ x ∈ l, P x) ↔ ∃ i : Fin 5, P (l.getD i.val d) := by
  constructor
  · rintro ⟨x, hx, hPx⟩
    obtain ⟨n, hn, rfl⟩ := List.mem_iff_getElem.mp hx
    refine ⟨⟨n, by omega⟩, ?_⟩
    rwa [List.getD_eq_getElem _ _ hn]
  · rintro ⟨i, hPi⟩
    have hi : (i : Nat) < l.length := by omega
    rw [List.getD_eq_getElem _ _ hi] at hPi
    exact ⟨_, List.getElem_mem hi, hPi⟩

lemma rows_part (b : List (List Cell)) (aid : String) (hb : b.length = 5)
    (hrows : ∀ row ∈ b, row.length = 5) :
    (b.any (fun row => checkLine aid row) = true) ↔
      ∃ r : Fin 5, ∀ c : Fin 5, lineFor aid (cellAt b r c) := by
  rw [List.any_eq_true]
  rw [exists_mem_iff_fin5 [] b hb (fun row => checkLine aid row = true)]
  apply exists_congr
  intro r
  have hr : (r : Nat) < b.length := by omega
  have hrow : (b.getD r []).length = 5 := by
    rw [List.getD_eq_getElem _ _ hr]
    exact hrows _ (List.getElem_mem hr)
  rw [checkLine_eq_true, forall_mem_iff_fin5 dCell _ hrow]
  rfl

lemma cols_part (b : List (List Cell)) (aid : String) (hb : b.length = 5) :
    ((List.range 5).any (fun c =>
        checkLine aid (b.map (fun r => r.getD c dCell))) = true) ↔
      ∃ c : Fin 5, ∀ r : Fin 5, lineFor aid (cellAt b r c) := by
  rw [List.any_eq_true]
  constructor
  · rintro ⟨c, hc, hchk⟩
    rw [List.mem_range] at hc
    refine ⟨⟨c, hc⟩, ?_⟩
    intro r
    rw [checkLine_eq_true] at hchk
    have hr : (r : Nat) < b.length := by omega
    have : (b.getD r []).getD c dCell ∈ b.map (fun row => row.getD c dCell) := by
      rw [List.getD_eq_getElem _ _ hr]
      exact List.mem_map_of_mem _ (List.getElem_mem hr)
    exact hchk _ this
  · rintro ⟨c, hc⟩
    refine ⟨c, List.mem_range.mpr c.isLt, ?_⟩
    rw [checkLine_eq_true]
    intro x hx
    rw [List.mem_map] at hx
    obtain ⟨row, hrow, rfl⟩ := hx
    obtain ⟨n, hn, rfl⟩ := List.mem_iff_getElem.mp hrow
    have := hc ⟨n, by omega⟩
    simp only [cellAt] at this
    rwa [List.getD_eq_getElem _ _ hn] at this

lemma diag_main_part (b : List (List Cell)) (aid : String) :
    (checkLine aid ((List.range 5).map (fun i => cellAt b i i)) = true) ↔
      ∀ i : Fin 5, lineFor aid (cellAt b i i) := by
  rw [checkLine_eq_true]
  constructor
  · intro hall i
    exact hall _ (List.mem_map_of_mem _ (List.mem_range.mpr i.isLt))
  · intro hfin x hx
    rw [List.mem_map] at hx
    obtain ⟨i, hi, rfl⟩ := hx
    rw [List.mem_range] at hi
    exact hfin ⟨i, hi⟩

lemma diag_anti_part (b : List (List Cell)) (aid : String) :
    (checkLine aid ((List.range 5).map (fun i => cellAt b i (4 - i))) = true) ↔
      ∀ i : Fin 5, lineFor aid (cellAt b i (4 - i)) := by
  rw [checkLine_eq_true]
  constructor
  · intro hall i
    exact hall _ (List.mem_map_of_mem _ (List.mem_range.mpr i.isLt))
  · intro hfin x hx
    rw [List.mem_map] at hx
    obtain ⟨i, hi, rfl⟩ := hx
    rw [List.mem_range] at hi
    exact hfin ⟨i, hi⟩

/-! ## Called-numbers invariant and `call-number` lemmas -/

/-- The called-numbers invariant of a room: no duplicates, all in
`[1, 75]`. -/
def Inv (g : Game) : Prop :=
  g.calledNumbers.Nodup ∧ ∀ n ∈ g.calledNumbers, 1 ≤ n ∧ n ≤ 75

/-- Run a sequence of `call-number` actions with oracle values `ks`,
collecting the successfully returned numbers in call order; a failed
call leaves the room unchanged. -/
def runCalls (g : Game) (aid : String) (ks : List Nat) : Game × List Nat :=
  match ks with
  | [] => (g, [])
  | k :: ks' =>
    match callNumber g aid k with
    | .ok p =>
      let rest := runCalls p.2 aid ks'
      (rest.1, p.1 :: rest.2)
    | .error _ => runCalls g aid ks'

lemma mem_availableNumbers (g : Game) (n : Nat) :
    n ∈ availableNumbers g ↔ 1 ≤ n ∧ n ≤ 75 ∧ n ∉ g.calledNumbers := by
  simp only [availableNumbers, List.mem_filter, List.mem_map, List.mem_range,
    Bool.not_eq_true', ← Bool.not_eq_true, Bool.not_not, List.elem_iff]
  constructor
  · rintro ⟨⟨i, hi, rfl⟩, hc⟩
    exact ⟨by omega, by omega, by simpa using hc⟩
  · rintro ⟨h1, h2, hc⟩
    exact ⟨⟨n - 1, by omega, by omega⟩, by simpa using hc⟩

lemma callNumber_ok {g : Game} {aid : String} {k n : Nat} {g' : Game}
    (h : callNumber g aid k = .ok (n, g')) :
    aid = g.hostId ∧ n ∈ availableNumbers g ∧
      g' = { g with calledNumbers := g.calledNumbers ++ [n] } := by
  simp only [callNumber] at h
  split at h
  · cases h
  · rename_i haid
    split at h
    · cases h
    · rename_i hlen
      cases h
      have hpos : 0 < (availableNumbers g).length := Nat.pos_of_ne_zero hlen
      have hk : k % (availableNumbers g).length < (availableNumbers g).length :=
        Nat.mod_lt _ hpos
      refine ⟨by simpa using haid, ?_, rfl⟩
      rw [List.getD_eq_getElem _ _ hk]
      exact List.getElem_mem hk

lemma availableNumbers_eq_nil {g : Game} (hInv : Inv g)
    (hlen : g.calledNumbers.length = 75) : availableNumbers g = [] := by
  obtain ⟨hnd, hmem⟩ := hInv
  have hsub : g.calledNumbers.toFinset ⊆ Finset.Icc 1 75 := by
    intro n hn
    rw [List.mem_toFinset] at hn
    have := hmem n hn
    rw [Finset.mem_Icc]
    omega
  have hcard : g.calledNumbers.toFinset.card = 75 := by
    rw [List.toFinset_card_of_nodup hnd, hlen]
  have hIcc : (Finset.Icc 1 75 : Finset Nat).card = 75 := by decide
  have heq : g.calledNumbers.toFinset = Finset.Icc 1 75 :=
    Finset.eq_of_subset_of_card_le hsub (by rw [hcard, hIcc])
  rw [availableNumbers, List.filter_eq_nil_iff]
  intro n hn
  simp only [List.mem_map, List.mem_range] at hn
  obtain ⟨i, hi, rfl⟩ := hn
  have : (i + 1) ∈ g.calledNumbers.toFinset := by
    rw [heq, Finset.mem_Icc]
    omega
  rw [List.mem_toFinset] at this
  simp [List.elem_iff, this]

lemma callNumber_exhausted {g : Game} (hInv : Inv g)
    (hlen : g.calledNumbers.length = 75) (k : Nat) :
    callNumber g g.hostId k = .error .exhausted := by
  rw [callNumber, if_neg (by simp)]
  rw [availableNumbers_eq_nil hInv hlen]
  rfl

/-! ## Association-list lemmas for the `players` object and `games` map -/

lemma setEntry_cons_self {α : Type} (a : String) (b v : α) (tl : List (String × α)) :
    setEntry ((a, b) :: tl) a v = (a, v) :: setEntry tl a v := by
  rw [setEntry, List.map_cons, if_pos rfl]
  rfl

lemma setEntry_cons_other {α : Type} (a k : String) (b : α) (v : α) (tl : List (String × α))
    (h : a ≠ k) : setEntry ((a, b) :: tl) k v = (a, b) :: setEntry tl k v := by
  rw [setEntry, List.map_cons, if_neg h]
  rfl

lemma lookup_cons_self {α : Type} (a : String) (b : α) (tl : List (String × α)) :
    List.lookup a ((a, b) :: tl) = some b := by
  simp [List.lookup]

lemma lookup_cons_other {α : Type} (a k : String) (b : α) (tl : List (String × α))
    (h : k ≠ a) : List.lookup k ((a, b) :: tl) = List.lookup k tl := by
  simp [List.lookup, beq_eq_false_iff_ne.mpr h]

lemma lookup_setEntry_self {α : Type} (ps : List (String × α)) (k : String) (v : α) (p : α)
    (h : List.lookup k ps = some p) : List.lookup k (setEntry ps k v) = some v := by
  induction ps with
  | nil => simp [List.lookup] at h
  | cons hd tl ih =>
    obtain ⟨a, b⟩ := hd
    rcases eq_or_ne a k with rfl | hk
    · rw [setEntry_cons_self, lookup_cons_self]
    · have hne : k ≠ a := hk.symm
      rw [lookup_cons_other a k b tl hne] at h
      rw [setEntry_cons_other a k b v tl hk, lookup_cons_other a k b _ hne]
      exact ih h

lemma lookup_setEntry_other {α : Type} (ps : List (String × α)) (k k' : String) (v : α)
    (h : k' ≠ k) : List.lookup k' (setEntry ps k v) = List.lookup k' ps := by
  induction ps with
  | nil => simp [setEntry]
  | cons hd tl ih =>
    obtain ⟨a, b⟩ := hd
    rcases eq_or_ne a k with rfl | hk
    · rw [setEntry_cons_self, lookup_cons_other a k' v _ h, lookup_cons_other a k' b _ h]
      exact ih
    · rcases eq_or_ne k' a with rfl | hka
      · rw [setEntry_cons_other _ _ _ _ _ hk, lookup_cons_self, lookup_cons_self]
      · rw [setEntry_cons_other _ _ _ _ _ hk, lookup_cons_other a k' b _ hka,
          lookup_cons_other a k' b _ hka]
        exact ih

lemma lookup_of_any {α : Type} (ps : List (String × α)) (k : String)
    (hany : (ps.any fun p => decide (p.1 = k)) = true) :
    ∃ p, List.lookup k ps = some p := by
  induction ps with
  | nil => simp at hany
  | cons hd tl ih =>
    obtain ⟨a, b⟩ := hd
    rcases eq_or_ne k a with rfl | hka
    · exact ⟨b, lookup_cons_self k b tl⟩
    · simp only [List.any_cons, Bool.or_eq_true, decide_eq_true_eq] at hany
      rcases hany with ha | hany
      · exact absurd ha.symm hka
      · obtain ⟨p, hp⟩ := ih (by simpa using hany)
        exact ⟨p, by rw [lookup_cons_other a k b tl hka]; exact hp⟩

lemma lookup_none_of_not_any {α : Type} (ps : List (String × α)) (k : String)
    (hany : ¬(ps.any fun p => decide (p.1 = k)) = true) : List.lookup k ps = none := by
  induction ps with
  | nil => simp [List.lookup]
  | cons hd tl ih =>
    obtain ⟨a, b⟩ := hd
    simp only [List.any_cons, Bool.or_eq_true, decide_eq_true_eq] at hany
    push_neg at hany
    have hka : k ≠ a := fun hh => hany.1 hh.symm
    rw [lookup_cons_other a k b tl hka]
    exact ih (by simpa using hany.2)

lemma lookup_append_singleton_self {α : Type} (ps : List (String × α)) (k : String) (v : α)
    (h : List.lookup k ps = none) : List.lookup k (ps ++ [(k, v)]) = some v := by
  induction ps with
  | nil => simp [List.lookup]
  | cons hd tl ih =>
    obtain ⟨a, b⟩ := hd
    rcases eq_or_ne k a with rfl | hka
    · rw [lookup_cons_self] at h
      cases h
    · rw [lookup_cons_other a k b tl hka] at h
      rw [List.cons_append, lookup_cons_other a k b _ hka]
      exact ih h

lemma lookup_append_singleton_other {α : Type} (ps : List (String × α)) (k k' : String)
    (v : α) (h : k' ≠ k) : List.lookup k' (ps ++ [(k, v)]) = List.lookup k' ps := by
  induction ps with
  | nil => simp [List.lookup, beq_eq_false_iff_ne.mpr h]
  | cons hd tl ih =>
    obtain ⟨a, b⟩ := hd
    rcases eq_or_ne k' a with rfl | hka
    · rw [List.cons_append, lookup_cons_self, lookup_cons_self]
    · rw [List.cons_append, lookup_cons_other a k' b _ hka, lookup_cons_other a k' b _ hka]
      exact ih

lemma lookup_mapSet_self {α : Type} (ps : List (String × α)) (k : String) (v : α) :
    List.lookup k (mapSet ps k v) = some v := by
  rw [mapSet]
  split
  · rename_i hany
    obtain ⟨p, hp⟩ := lookup_of_any ps k hany
    exact lookup_setEntry_self ps k v p hp
  · rename_i hany
    exact lookup_append_singleton_self ps k v (lookup_none_of_not_any ps k hany)

lemma lookup_mapSet_other {α : Type} (ps : List (String × α)) (k k' : String) (v : α)
    (h : k' ≠ k) : List.lookup k' (mapSet ps k v) = List.lookup k' ps := by
  rw [mapSet]
  split
  · exact lookup_setEntry_other ps k k' v h
  · exact lookup_append_singleton_other ps k k' v h

/-! ## `mark-cell` characterization -/

/-- `player.board[row][col]` as the handlers see it: `none` when the
final indexing yields `undefined` (out-of-range column) and also when
the row indexing already yielded `undefined`. -/
def cellAtI (b : List (List Cell)) (r c : Int) : Option Cell :=
  (jsIndex b r).bind (fun rc => jsIndex rc c)

lemma jsIndex_eq_some {α : Type} {l : List α} {i : Int} {x : α}
    (h : jsIndex l i = some x) :
    0 ≤ i ∧ ∃ hn : i.toNat < l.length, l[i.toNat] = x := by
  rw [jsIndex] at h
  split at h
  · rename_i hi
    rw [List.get?_eq_getElem?] at h
    rw [List.getElem?_eq_some_iff] at h
    exact ⟨hi, h⟩
  · cases h

lemma jsIndex_set_self {α : Type} {l : List α} {n : Nat} (a : α) (h : n < l.length) :
    jsIndex (l.set n a) (n : Int) = some a := by
  rw [jsIndex, if_pos (by omega)]
  rw [List.get?_eq_getElem?]
  simp [List.getElem?_set_self, h]

lemma jsIndex_set_other {α : Type} {l : List α} {n : Nat} (a : α) {i : Int}
    (h : i ≠ (n : Int)) : jsIndex (l.set n a) i = jsIndex l i := by
  rw [jsIndex, jsIndex]
  split
  · rename_i hi
    rw [List.get?_eq_getElem?, List.get?_eq_getElem?]
    have : i.toNat ≠ n := by omega
    rw [List.getElem?_set_ne (Ne.symm this)]
  · rfl

/-- The player as rewritten by a successful `mark-cell`: only the
target cell's `markedBy` is replaced, by the JS toggle
`cell.markedBy ? null : socket.id`. -/
def toggledPlayer (p : Player) (aid : String) (row col : Int)
    (rowCells : List Cell) (cell : Cell) : Player :=
  { p with board := p.board.set row.toNat (rowCells.set col.toNat
      { cell with markedBy := if jsTruthy cell.markedBy then none else some aid }) }

lemma markCell_ok {g : Game} {aid : String} {row col : Int} {p : Player}
    {rowCells : List Cell} {cell : Cell}
    (hp : List.lookup aid g.players = some p)
    (hrow : jsIndex p.board row = some rowCells)
    (hcol : jsIndex rowCells col = some cell) :
    markCell g aid row col =
      .ok { g with players := setEntry g.players aid (toggledPlayer p aid row col rowCells cell) } := by
  simp only [markCell, hp, hrow, hcol, toggledPlayer]
lemma toggledPlayer_cell_self {p : Player} {aid : String} {row col : Int}
    {rowCells : List Cell} {cell : Cell}
    (hrow : jsIndex p.board row = some rowCells)
    (hcol : jsIndex rowCells col = some cell) :
    cellAtI (toggledPlayer p aid row col rowCells cell).board row col =
      some { cell with markedBy := if jsTruthy cell.markedBy then none else some aid } := by
  obtain ⟨hr0, hrn, -⟩ := jsIndex_eq_some hrow
  obtain ⟨hc0, hcn, -⟩ := jsIndex_eq_some hcol
  have hrow' : row = ((row.toNat : Nat) : Int) := by omega
  have hcol' : col = ((col.toNat : Nat) : Int) := by omega
  rw [cellAtI, toggledPlayer]
  simp only []
  rw [hrow']
  simp only [Int.toNat_natCast]
  rw [jsIndex_set_self _ hrn]
  simp only [Option.some_bind]
  rw [hcol']
  simp only [Int.toNat_natCast]
  rw [jsIndex_set_self _ (by simpa using hcn)]

lemma markCell_winnerId {g : Game} {aid : String} {row col : Int} {g' : Game}
    (h : markCell g aid row col = .ok g') : g'.winnerId = g.winnerId := by
  rcases hl : List.lookup aid g.players with _ | p <;>
    simp only [markCell, hl] at h
  · cases h
  · rcases hr : jsIndex p.board row with _ | rowCells <;> simp only [hr] at h
    · cases h
    · rcases hc : jsIndex rowCells col with _ | cell <;> simp only [hc] at h
      · cases h
      · cases h
        rfl

lemma toggledPlayer_cell_other {p : Player} {aid : String} {row col : Int}
    {rowCells : List Cell} {cell : Cell}
    (hrow : jsIndex p.board row = some rowCells)
    (hcol : jsIndex rowCells col = some cell)
    (r c : Int) (h : ¬(r = row ∧ c = col)) :
    cellAtI (toggledPlayer p aid row col rowCells cell).board r c =
      cellAtI p.board r c := by
  obtain ⟨hr0, hrn, hget⟩ := jsIndex_eq_some hrow
  obtain ⟨hc0, hcn, -⟩ := jsIndex_eq_some hcol
  rcases eq_or_ne r row with rfl | hr
  · have hc : c ≠ col := fun hh => h ⟨rfl, hh⟩
    have hrow' : r = ((r.toNat : Nat) : Int) := by omega
    rw [cellAtI, cellAtI, toggledPlayer]
    simp only []
    rw [hrow']
    simp only [Int.toNat_natCast]
    rw [jsIndex_set_self _ hrn]
    rw [← hrow', hrow]
    simp only [Option.some_bind]
    rw [jsIndex_set_other]
    omega
  · rw [cellAtI, cellAtI, toggledPlayer]
    simp only []
    rw [jsIndex_set_other]
    omega

/-! ## Concrete instances used by witnesses and counterexamples -/

/-- A fixed randomness oracle (always draw index 0). -/
def rand0 : Nat → Nat → Nat := fun _ _ => 0

/-- The board generated under `rand0`: column `c` holds
`15c+1, …, 15c+5` from row 0 to row 4. -/
def board0 : List (List Cell) := generateBoard rand0

/-- A two-player room in the shape produced by create-room followed by
join-room: host Alice (socket id `"A"`) and member Bob (`"B"`). -/
def gA : Game :=
  { id := "room1", hostId := "A",
    players := [("A", { id := "A", name := "Alice", board := board0 }),
                ("B", { id := "B", name := "Bob", board := board0 })],
    calledNumbers := [], started := false, winnerId := none }

/-- Alice's player record in `gA`. -/
def pA : Player := { id := "A", name := "Alice", board := board0 }

/-- Row 2 of `board0`. -/
def row2A : List Cell := board0.getD 2 []

/-- The center cell of `board0` (drawn number 33, pre-marked free). -/
def centerA : Cell := cellAt board0 2 2

/-- `board0` with cell (0,0) of the grid marked by actor `"B"`. -/
def boardMixed : List (List Cell) :=
  board0.set 0 ((board0.getD 0 []).set 0 { number := some 1, markedBy := some "B" })

/-- A room whose single member Alice has a board containing a cell
marked by a different actor. -/
def gMixed : Game :=
  { id := "room2", hostId := "A",
    players := [("A", { id := "A", name := "Alice", board := boardMixed })],
    calledNumbers := [], started := false, winnerId := none }

/-- Alice's player record in `gMixed`. -/
def pM : Player := { id := "A", name := "Alice", board := boardMixed }

/-- Row 0 of `boardMixed`. -/
def rowM : List Cell := boardMixed.getD 0 []

/-- Cell (0,0) of `boardMixed`. -/
def cellM : Cell := { number := some 1, markedBy := some "B" }

/-- A board on which every cell is marked by the given actor. -/
def boardFull (aid : String) : List (List Cell) :=
  (List.range 5).map (fun _ =>
    (List.range 5).map (fun _ => { number := some 1, markedBy := some aid }))

/-- A one-player room whose member holds a fully marked board. -/
def gWin : Game :=
  { id := "w", hostId := "A",
    players := [("A", { id := "A", name := "Alice", board := boardFull "A" })],
    calledNumbers := [], started := true, winnerId := none }

/-- A pre-existing room registered under code `"abc"`. -/
def gOld : Game :=
  { id := "abc", hostId := "H", players := [], calledNumbers := [7],
    started := true, winnerId := none }

/-- Chain an `Except` step into an `Option`-valued trace. -/
def okThen {ε α β : Type} (x : Except ε α) (f : α → Option β) : Option β :=
  match x with
  | .ok a => f a
  | .error _ => none

/-- An end-to-end run reachable from an empty registry: Alice creates a
room, Bob joins, Alice starts, Alice marks row 0 of her board and claims
bingo, then Bob marks row 0 of his own board and claims bingo; the trace
returns the room's `winnerId` right after each of the two successful
claims. -/
def winnerTrace : Option (Option String × Option String) :=
  (List.lookup "room1" (createRoom [] "room1" "A" "Alice" rand0).1).bind fun g =>
  okThen (joinRoom g "B" "Bob" rand0) fun g =>
  okThen (startGame g "A") fun g =>
  okThen (markCell g "A" 0 0) fun g =>
  okThen (markCell g "A" 0 1) fun g =>
  okThen (markCell g "A" 0 2) fun g =>
  okThen (markCell g "A" 0 3) fun g =>
  okThen (markCell g "A" 0 4) fun g =>
  okThen (claimBingo g "A") fun g1 =>
  okThen (markCell g1 "B" 0 0) fun g =>
  okThen (markCell g "B" 0 1) fun g =>
  okThen (markCell g "B" 0 2) fun g =>
  okThen (markCell g "B" 0 3) fun g =>
  okThen (markCell g "B" 0 4) fun g =>
  okThen (claimBingo g "B") fun g2 =>
  some (g1.winnerId, g2.winnerId)

/-! ## Claim theorems -/

/-- C1: for every 5×5 board and every actor id the win check returns
true iff some full row, some full column, the main diagonal or the
anti-diagonal is complete for that actor (a cell counting iff its
`markedBy` equals the actor's id or `"free"`), and the claim-bingo
evaluation does not mutate any board: the `players` map of the room is
unchanged by a successful claim. -/
theorem claim1_win_check_correct (b : List (List Cell)) (aid : String)
    (hb : b.length = 5) (hrows : ∀ row ∈ b, row.length = 5) :
    (hasBingo b aid = true ↔ winSpec b aid) ∧
    (∀ g g', claimBingo g aid = .ok g' → g'.players = g.players) := by
  constructor
  · rw [hasBingo, winSpec]
    simp only [Bool.or_eq_true]
    rw [rows_part b aid hb hrows, cols_part b aid hb, diag_main_part b aid,
      diag_anti_part b aid]
    tauto
  · intro g g' h
    rcases hl : List.lookup aid g.players with _ | p
    · simp only [claimBingo, hl] at h
      cases h
    · simp only [claimBingo, hl] at h
      split at h
      · cases h
        rfl
      · cases h

/-- Witness for C1 at the concrete board `board0` and a concrete
successful claim on `gWin`. -/
theorem claim1_win_check_correct_witness :
    (hasBingo board0 "A" = true ↔ winSpec board0 "A") ∧
    ({ gWin with winnerId := some "A" } : Game).players = gWin.players :=
  ⟨(claim1_win_check_correct board0 "A" (by decide) (by decide)).1,
    (claim1_win_check_correct board0 "A" (by decide) (by decide)).2
      gWin { gWin with winnerId := some "A" } rfl⟩

/-- C2: starting from any room satisfying the called-numbers invariant,
any sequence of call-number actions returns pairwise-distinct numbers,
all in `[1, 75]`, appends exactly the returned numbers in order to
`calledNumbers`, preserves the invariant, and once `calledNumbers`
holds 75 (distinct) values the next call by the host fails with
Exhausted. -/
theorem claim2_called_numbers_unique (g : Game) (aid : String) (ks : List Nat)
    (hInv : Inv g) :
    (runCalls g aid ks).2.Nodup ∧
    (∀ n ∈ (runCalls g aid ks).2, 1 ≤ n ∧ n ≤ 75) ∧
    (runCalls g aid ks).1.calledNumbers = g.calledNumbers ++ (runCalls g aid ks).2 ∧
    Inv (runCalls g aid ks).1 ∧
    ((runCalls g aid ks).1.calledNumbers.length = 75 →
      ∀ k, callNumber (runCalls g aid ks).1 (runCalls g aid ks).1.hostId k =
        .error .exhausted) := by
  induction ks generalizing g with
  | nil =>
    refine ⟨by simp [runCalls], by simp [runCalls], by simp [runCalls],
      by simpa [runCalls], ?_⟩
    intro h75 k
    exact callNumber_exhausted hInv h75 k
  | cons k ks ih =>
    rcases hcall : callNumber g aid k with e | p
    · have hred : runCalls g aid (k :: ks) = runCalls g aid ks := by
        simp [runCalls, hcall]
      rw [hred]
      exact ih g hInv
    · obtain ⟨n, g'⟩ := p
      obtain ⟨haid, hmem, rfl⟩ := callNumber_ok hcall
      have hnb := (mem_availableNumbers g n).mp hmem
      have hInv' : Inv { g with calledNumbers := g.calledNumbers ++ [n] } := by
        constructor
        · simp only [List.nodup_append]
          exact ⟨hInv.1, List.nodup_singleton n, by simpa using fun h => hnb.2.2 h⟩
        · intro m hm
          simp only [List.mem_append, List.mem_singleton] at hm
          rcases hm with hm | rfl
          · exact hInv.2 m hm
          · exact ⟨hnb.1, hnb.2.1⟩
      have ihg := ih _ hInv'
      have hred : runCalls g aid (k :: ks) =
          ((runCalls { g with calledNumbers := g.calledNumbers ++ [n] } aid ks).1,
            n :: (runCalls { g with calledNumbers := g.calledNumbers ++ [n] } aid ks).2) := by
        simp [runCalls, hcall]
      rw [hred]
      obtain ⟨ihnd, ihbnd, ihapp, ihinv, ihex⟩ := ihg
      have happ : (runCalls { g with calledNumbers := g.calledNumbers ++ [n] } aid ks).1.calledNumbers
          = g.calledNumbers ++ n ::
            (runCalls { g with calledNumbers := g.calledNumbers ++ [n] } aid ks).2 := by
        rw [ihapp]
        simp
      refine ⟨?_, ?_, happ, ihinv, ihex⟩
      · have hndall := ihinv.1
        rw [happ] at hndall
        exact hndall.of_append_right
      · intro m hm
        rcases List.mem_cons.mp hm with rfl | hm
        · exact ⟨hnb.1, hnb.2.1⟩
        · exact ihbnd m hm

/-- Witness for C2: three calls on the fresh room `gA` (oracle values
0, 0, 0) return distinct in-range numbers appended to `calledNumbers`. -/
theorem claim2_called_numbers_unique_witness :
    (runCalls gA "A" [0, 0, 0]).2.Nodup ∧
    (runCalls gA "A" [0, 0, 0]).1.calledNumbers =
      gA.calledNumbers ++ (runCalls gA "A" [0, 0, 0]).2 ∧
    Inv (runCalls gA "A" [0, 0, 0]).1 :=
  ⟨(claim2_called_numbers_unique gA "A" [0, 0, 0] ⟨by decide, by decide⟩).1,
    (claim2_called_numbers_unique gA "A" [0, 0, 0] ⟨by decide, by decide⟩).2.2.1,
    (claim2_called_numbers_unique gA "A" [0, 0, 0] ⟨by decide, by decide⟩).2.2.2.1⟩

/-- C3 counterexample: in a room reached from an empty registry by
create, join, start and marks, Alice's successful claim sets `winnerId`
to `"A"`, and Bob's later successful claim changes it to `"B"` — so
`winnerId` is not assigned at most once. -/
theorem claim3_winner_overwritten_counterexample :
    winnerTrace = some (some "A", some "B") ∧
    (some "A" : Option String) ≠ some "B" :=
  ⟨rfl, by decide⟩

/-- C3 amended: `winnerId` is assigned only by a claim whose win check
succeeded (and then to the claimant); call-number, mark-cell,
start-game and join-room never change `winnerId`.  It is not write-once:
a later successful claim overwrites it (see the counterexample). -/
theorem claim3_winner_assignment_amended :
    (∀ (g : Game) (aid : String) (g' : Game), claimBingo g aid = .ok g' →
      g'.winnerId = some aid ∧
        ∃ p, List.lookup aid g.players = some p ∧ hasBingo p.board aid = true) ∧
    (∀ (g : Game) (aid : String) (k n : Nat) (g' : Game),
      callNumber g aid k = .ok (n, g') → g'.winnerId = g.winnerId) ∧
    (∀ (g : Game) (aid : String) (row col : Int) (g' : Game),
      markCell g aid row col = .ok g' → g'.winnerId = g.winnerId) ∧
    (∀ (g : Game) (aid : String) (g' : Game),
      startGame g aid = .ok g' → g'.winnerId = g.winnerId) ∧
    (∀ (g : Game) (aid nm : String) (rand : Nat → Nat → Nat) (g' : Game),
      joinRoom g aid nm rand = .ok g' → g'.winnerId = g.winnerId) := by
  refine ⟨?_, ?_, ?_, ?_, ?_⟩
  · intro g aid g' h
    rcases hl : List.lookup aid g.players with _ | p
    · simp only [claimBingo, hl] at h
      cases h
    · simp only [claimBingo, hl] at h
      split at h
      · rename_i hw
        cases h
        exact ⟨rfl, p, rfl, hw⟩
      · cases h
  · intro g aid k n g' h
    obtain ⟨-, -, rfl⟩ := callNumber_ok h
    rfl
  · intro g aid row col g' h
    exact markCell_winnerId h
  · intro g aid g' h
    rw [startGame] at h
    split at h
    · cases h
    · cases h
      rfl
  · intro g aid nm rand g' h
    rw [joinRoom] at h
    split at h
    · cases h
    · cases h
      rfl

/-- Witness for C3 amended: a successful claim on `gWin` assigns the
claimant, and a successful call on `gA` leaves `winnerId` unchanged. -/
theorem claim3_winner_assignment_amended_witness :
    (({ gWin with winnerId := some "A" } : Game).winnerId = some "A" ∧
      ∃ p, List.lookup "A" gWin.players = some p ∧ hasBingo p.board "A" = true) ∧
    ({ gA with calledNumbers := [1] } : Game).winnerId = gA.winnerId :=
  ⟨claim3_winner_assignment_amended.1 gWin "A" { gWin with winnerId := some "A" } rfl,
    claim3_winner_assignment_amended.2.1 gA "A" 0 1
      { gA with calledNumbers := [1] } rfl⟩

/-- C4 counterexample: on the generated board `board0` the center cell
is pre-marked `"free"`, but one mark-cell on it by Alice leaves the
center's `markedBy` equal to `none`, not `"free"` — the free mark is
not immutable and marking it is not a no-op. -/
theorem claim4_free_cell_counterexample :
    ((markCell gA "A" 2 2).toOption.bind (fun g => List.lookup "A" g.players)).map
      (fun p => (cellAt p.board 2 2).markedBy) = some none ∧
    some (none : Option String) ≠ some (some "free") :=
  ⟨rfl, by decide⟩

/-- C4 amended: every generated board's center cell starts with
`markedBy = "free"`, but it is mutable: mark-cell on the center by a
member whose center is still `"free"` toggles it to unmarked (`none`). -/
theorem claim4_free_cell_amended :
    (∀ rand : Nat → Nat → Nat, (cellAt (generateBoard rand) 2 2).markedBy = some "free") ∧
    (∀ (g : Game) (aid : String) (p : Player) (rowCells : List Cell) (cell : Cell),
      List.lookup aid g.players = some p →
      jsIndex p.board 2 = some rowCells →
      jsIndex rowCells 2 = some cell →
      cell.markedBy = some "free" →
      ((markCell g aid 2 2).toOption.bind (fun g' => List.lookup aid g'.players)).map
        (fun p' => cellAtI p'.board 2 2) = some (some { cell with markedBy := none })) := by
  constructor
  · intro rand
    rfl
  · intro g aid p rowCells cell hp hrow hcol hfree
    rw [markCell_ok hp hrow hcol]
    have hok : ∀ x : Game, (Except.ok x : Except MarkErr Game).toOption = some x := fun x => rfl
    rw [hok, Option.some_bind]
    rw [lookup_setEntry_self g.players aid _ p hp]
    rw [Option.map_some']
    rw [toggledPlayer_cell_self hrow hcol]
    have hT : jsTruthy cell.markedBy = true := by
      rw [hfree]
      rfl
    rw [hT]
    simp

/-- Witness for C4 amended: Alice marks the free center of her fresh
board in `gA` and it becomes unmarked. -/
theorem claim4_free_cell_amended_witness :
    ((markCell gA "A" 2 2).toOption.bind (fun g' => List.lookup "A" g'.players)).map
      (fun p' => cellAtI p'.board 2 2) = some (some { centerA with markedBy := none }) :=
  claim4_free_cell_amended.2 gA "A" pA row2A centerA (by rfl) (by rfl) (by rfl) (by rfl)

/-- C5 counterexample: in `gMixed`, cell (0,0) of Alice's board is
marked by the different actor `"B"`; Alice's mark-cell on it yields
`markedBy = none` (unmarked), not `some "A"` as the claim requires. -/
theorem claim5_toggle_counterexample :
    ((markCell gMixed "A" 0 0).toOption.bind (fun g => List.lookup "A" g.players)).map
      (fun p => cellAtI p.board 0 0) =
      some (some { number := some 1, markedBy := none }) ∧
    some (some ({ number := some 1, markedBy := none } : Cell)) ≠
      some (some ({ number := some 1, markedBy := some "A" } : Cell)) :=
  ⟨rfl, by decide⟩

/-- C5 amended: mark-cell by a member on an in-range cell unmarks the
cell whenever its `markedBy` is truthy — marked by this actor, by a
different actor, or `"free"` — and marks it with this actor's id only
when it is currently unmarked; nothing else changes: all other cells,
all other players, and all other room fields are untouched. -/
theorem claim5_toggle_amended (g : Game) (aid : String) (row col : Int)
    (p : Player) (rowCells : List Cell) (cell : Cell)
    (hp : List.lookup aid g.players = some p)
    (hrow : jsIndex p.board row = some rowCells)
    (hcol : jsIndex rowCells col = some cell) :
    markCell g aid row col = .ok { g with players := setEntry g.players aid (toggledPlayer p aid row col rowCells cell) } ∧
    cellAtI (toggledPlayer p aid row col rowCells cell).board row col =
      some { cell with markedBy := if jsTruthy cell.markedBy then none else some aid } ∧
    (∀ r c : Int, ¬(r = row ∧ c = col) →
      cellAtI (toggledPlayer p aid row col rowCells cell).board r c = cellAtI p.board r c) ∧
    List.lookup aid (setEntry g.players aid (toggledPlayer p aid row col rowCells cell)) =
      some (toggledPlayer p aid row col rowCells cell) ∧
    (∀ aid', aid' ≠ aid →
      List.lookup aid' (setEntry g.players aid (toggledPlayer p aid row col rowCells cell)) =
        List.lookup aid' g.players) ∧
    (toggledPlayer p aid row col rowCells cell).id = p.id ∧
    (toggledPlayer p aid row col rowCells cell).name = p.name := by
  refine ⟨markCell_ok hp hrow hcol, toggledPlayer_cell_self hrow hcol,
    toggledPlayer_cell_other hrow hcol, ?_, ?_, rfl, rfl⟩
  · exact lookup_setEntry_self g.players aid _ p hp
  · intro aid' h
    exact lookup_setEntry_other g.players aid aid' _ h

/-- Witness for C5 amended at `gMixed`: Alice marks the cell held by
`"B"`; the toggle unmarks it and cell (1,1) is untouched. -/
theorem claim5_toggle_amended_witness :
    cellAtI (toggledPlayer pM "A" 0 0 rowM cellM).board 0 0 =
      some { cellM with markedBy := if jsTruthy cellM.markedBy then none else some "A" } ∧
    cellAtI (toggledPlayer pM "A" 0 0 rowM cellM).board 1 1 = cellAtI pM.board 1 1 ∧
    (toggledPlayer pM "A" 0 0 rowM cellM).id = pM.id :=
  ⟨(claim5_toggle_amended gMixed "A" 0 0 pM rowM cellM rfl rfl rfl).2.1,
    (claim5_toggle_amended gMixed "A" 0 0 pM rowM cellM rfl rfl rfl).2.2.1 1 1 (by decide),
    (claim5_toggle_amended gMixed "A" 0 0 pM rowM cellM rfl rfl rfl).2.2.2.2.2.1⟩

/-- C6: out-of-range coordinates.  An out-of-range column is caught by
the `if (!cell)` guard and answered with the structured `Invalid cell`
failure, but an out-of-range row makes `player.board[row]` undefined
and the subsequent `[col]` access throws a TypeError (modelled as
`MarkErr.typeError`), crashing the handler instead of returning the
structured failure the spec requires. -/
theorem claim6_out_of_range_row_crashes :
    markCell gA "A" 5 0 = .error .typeError ∧
    markCell gA "A" (-1) 0 = .error .typeError ∧
    markCell gA "A" 0 5 = .error .invalidCell ∧
    markCell gA "A" 0 (-1) = .error .invalidCell ∧
    MarkErr.typeError ≠ MarkErr.invalidCell :=
  ⟨rfl, rfl, rfl, rfl, by decide⟩

/-- C7 counterexample: under the oracle `rand0` the generated board's
center cell keeps its drawn number 33 — its `number` field is not
`null`. -/
theorem claim7_center_number_counterexample :
    (cellAt (generateBoard rand0) 2 2).number = some 33 ∧
    (cellAt (generateBoard rand0) 2 2).number ≠ none :=
  ⟨rfl, by decide⟩

/-- C7 amended: for every oracle, generation sets the center cell's
`markedBy` to `"free"` but keeps the integer drawn for position (2,2) in
its `number` field (the drawn number is not discarded to `null`). -/
theorem claim7_center_cell_amended (rand : Nat → Nat → Nat) :
    (cellAt (generateBoard rand) 2 2).markedBy = some "free" ∧
    (cellAt (generateBoard rand) 2 2).number =
      some ((colNumbers rand 2).getD 2 0) :=
  ⟨rfl, rfl⟩

/-- C8: for every oracle, every cell of the generated board (the center
included) holds a number in its column's range `[15c+1, 15c+15]`, and
any two distinct positions hold distinct numbers (within a column by
draw-without-replacement, across columns by disjoint ranges). -/
theorem claim8_column_numbers (rand : Nat → Nat → Nat) :
    (∀ r c : Fin 5, ∃ n, (cellAt (generateBoard rand) r c).number = some n ∧
        15 * (c : Nat) + 1 ≤ n ∧ n ≤ 15 * (c : Nat) + 15) ∧
    (∀ r c r' c' : Fin 5, ¬(r = r' ∧ c = c') →
        (cellAt (generateBoard rand) r c).number ≠
          (cellAt (generateBoard rand) r' c').number) := by
  constructor
  · intro r c
    exact ⟨(colNumbers rand c).getD r 0, cell_number_eq rand r c,
      (colNumbers_bounds rand c r).1, (colNumbers_bounds rand c r).2⟩
  · intro r c r' c' hne
    rw [cell_number_eq rand r c, cell_number_eq rand r' c']
    intro heq
    have heq' : (colNumbers rand c).getD r 0 = (colNumbers rand c').getD r' 0 :=
      Option.some_injective _ heq
    by_cases hc : c = c'
    · subst hc
      have hr : r ≠ r' := fun h => hne ⟨h, rfl⟩
      exact colNumbers_getD_inj rand c r r' hr heq'
    · have b1 := colNumbers_bounds rand c r
      have b2 := colNumbers_bounds rand c' r'
      have : (c : Nat) ≠ (c' : Nat) := fun h => hc (Fin.ext h)
      omega

/-- Witness for C8 under `rand0`: rows 0 and 1 of column 0 hold
distinct numbers. -/
theorem claim8_column_numbers_witness :
    ¬((0 : Fin 5) = (1 : Fin 5) ∧ (0 : Fin 5) = (0 : Fin 5)) ∧
    (cellAt (generateBoard rand0) 0 0).number ≠
      (cellAt (generateBoard rand0) 1 0).number :=
  ⟨by decide, (claim8_column_numbers rand0).2 0 0 1 0 (by decide)⟩

/-- C9 counterexample: with room `"abc"` already registered, a
create-room whose generated code collides with `"abc"` replaces the
existing room's registry entry (the old room's state is lost) and adds
no new entry — the code is not collision-checked. -/
theorem claim9_collision_counterexample :
    List.lookup "abc" (createRoom [("abc", gOld)] "abc" "A" "Alice" rand0).1 ≠
      some gOld ∧
    (createRoom [("abc", gOld)] "abc" "A" "Alice" rand0).1.map Prod.fst = ["abc"] :=
  ⟨by decide, rfl⟩

/-- C9 amended: create-room registers the new Lobby-phase room (host
player with a fresh board) under the generated code with `Map.set`
semantics and no collision check: the generated code's entry is
replaced or created, and every other room is untouched — so on a code
collision the existing room's state is overwritten. -/
theorem claim9_create_room_amended (games : List (String × Game))
    (roomId aid nm : String) (rand : Nat → Nat → Nat) :
    (createRoom games roomId aid nm rand).2 = roomId ∧
    List.lookup roomId (createRoom games roomId aid nm rand).1 =
      some { id := roomId, hostId := aid,
             players := [(aid, { id := aid, name := nm, board := generateBoard rand })],
             calledNumbers := [], started := false, winnerId := none } ∧
    (∀ k, k ≠ roomId →
      List.lookup k (createRoom games roomId aid nm rand).1 = List.lookup k games) := by
  refine ⟨rfl, ?_, ?_⟩
  · exact lookup_mapSet_self games roomId _
  · intro k h
    exact lookup_mapSet_other games roomId k _ h

/-- Witness for C9 amended: creating room `"xyz"` next to the existing
room `"abc"` leaves `"abc"` untouched. -/
theorem claim9_create_room_amended_witness :
    (createRoom [("abc", gOld)] "xyz" "A" "Alice" rand0).2 = "xyz" ∧
    List.lookup "abc" (createRoom [("abc", gOld)] "xyz" "A" "Alice" rand0).1 =
      List.lookup "abc" [("abc", gOld)] :=
  ⟨(claim9_create_room_amended [("abc", gOld)] "xyz" "A" "Alice" rand0).1,
    (claim9_create_room_amended [("abc", gOld)] "xyz" "A" "Alice" rand0).2.2
      "abc" (by decide)⟩

/-- The room with its `started` flag replaced. -/
def setStarted (g : Game) (b : Bool) : Game := { g with started := b }

/-- C10: call-number, mark-cell and claim-bingo never inspect the
`started` flag — their results on a room with either flag value agree
modulo that flag — so all three succeed in the Lobby phase exactly as
in progress; only join-room is gated on the phase, failing once
`started` is true. -/
theorem claim10_phase_not_inspected :
    (∀ (g : Game) (b : Bool) (aid : String) (k : Nat),
      callNumber (setStarted g b) aid k =
        (callNumber g aid k).map (fun p => (p.1, setStarted p.2 b))) ∧
    (∀ (g : Game) (b : Bool) (aid : String) (row col : Int),
      markCell (setStarted g b) aid row col =
        (markCell g aid row col).map (fun g' => setStarted g' b)) ∧
    (∀ (g : Game) (b : Bool) (aid : String),
      claimBingo (setStarted g b) aid =
        (claimBingo g aid).map (fun g' => setStarted g' b)) ∧
    (∀ (g : Game) (aid nm : String) (rand : Nat → Nat → Nat),
      joinRoom (setStarted g true) aid nm rand = .error .alreadyStarted) := by
  refine ⟨?_, ?_, ?_, ?_⟩
  · intro g b aid k
    simp only [callNumber, availableNumbers, setStarted]
    by_cases h1 : aid ≠ g.hostId
    · rw [if_pos h1, if_pos h1]
      rfl
    · rw [if_neg h1, if_neg h1]
      split
      · rfl
      · rfl
  · intro g b aid row col
    simp only [markCell, setStarted]
    rcases hl : List.lookup aid g.players with _ | p <;> simp only [hl]
    · rfl
    · rcases hr : jsIndex p.board row with _ | rowCells <;> simp only [hr]
      · rfl
      · rcases hc : jsIndex rowCells col with _ | cell <;> simp only [hc]
        · rfl
        · rfl
  · intro g b aid
    simp only [claimBingo, setStarted]
    rcases hl : List.lookup aid g.players with _ | p <;> simp only [hl]
    · rfl
    · by_cases hw : hasBingo p.board aid = true
      · rw [if_pos hw, if_pos hw]
        rfl
      · rw [if_neg hw, if_neg hw]
        rfl
  · intro g aid nm rand
    rfl

end Bingo
